import Mathlib

/-!
Verification of the gopass GPG CLI wrapper (`gpg/cli/gpg.go`).

The wrapper shells out to an external `gpg` binary.  Here each operation is
embedded as a pure function over the *outcome* of the external invocation
(captured output plus an optional invocation error), mirroring the Go control
flow line by line.  Helper routines of the repository that live outside
`gpg.go` (`splitPacket`, `parseColons` and the identity-parsing consumer of
the two UID regexes) are modelled from the specification, as marked in their
doc comments.
-/

/-- Errors produced by the wrapper.  `invocation` is an error coming from the
external process (`exec.ExitError` and friends), `wrapped` mirrors
`errors.Wrapf` (a context message attached to an underlying error) and
`simple` mirrors `errors.Errorf`. -/
inductive GpgError where
  | invocation (msg : String)
  | wrapped (ctx : String) (e : GpgError)
  | simple (msg : String)
deriving DecidableEq, Repr

/-- Whether an error carries a wrapping context message (as added by
`errors.Wrapf`). -/
def GpgError.isWrapped : GpgError → Bool
  | .wrapped _ _ => true
  | _ => false

/-! ### String utilities mirroring the Go standard library -/

/-- `unicode.IsSpace` (the character set used by `strings.TrimSpace`). -/
def isSpaceGo (c : Char) : Bool :=
  let n := c.toNat
  n == 9 || n == 10 || n == 11 || n == 12 || n == 13 || n == 32 ||
  n == 0x85 || n == 0xA0 || n == 0x1680 ||
  (0x2000 ≤ n && n ≤ 0x200A) ||
  n == 0x2028 || n == 0x2029 || n == 0x202F || n == 0x205F || n == 0x3000

/-- `strings.TrimSpace` on a character list. -/
def trimSpaceL (l : List Char) : List Char :=
  ((l.dropWhile isSpaceGo).reverse.dropWhile isSpaceGo).reverse

/-- `strings.TrimSpace`. -/
def trimSpace (s : String) : String :=
  String.mk (trimSpaceL s.data)

/-- Whether `p` is a prefix of `l` (`strings.HasPrefix` on character lists). -/
def hasPrefixL : List Char → List Char → Bool
  | [], _ => true
  | _ :: _, [] => false
  | a :: p, b :: l => a == b && hasPrefixL p l

/-- `strings.HasPrefix s p`. -/
def hasPrefixStr (s p : String) : Bool :=
  hasPrefixL p.data s.data

/-- Whether `pat` occurs as a contiguous substring of `hay`
(`bytes.Contains` / `strings.Contains`). -/
def containsL (hay pat : List Char) : Bool :=
  if hasPrefixL pat hay then true
  else
    match hay with
    | [] => false
    | _ :: t => containsL t pat

/-- `strings.Contains s pat`. -/
def containsStr (s pat : String) : Bool :=
  containsL s.data pat.data

/-- Split a character list on a separator character; like
`strings.Split`, the empty input yields one empty field. -/
def splitCharOn (sep : Char) : List Char → List (List Char)
  | [] => [[]]
  | c :: t =>
    let r := splitCharOn sep t
    if c == sep then [] :: r
    else
      match r with
      | h :: rt => (c :: h) :: rt
      | [] => [[c]]

/-- Drop a trailing carriage return, as `bufio.ScanLines` does per line. -/
def dropCR (l : List Char) : List Char :=
  match l.getLast? with
  | some c => if c == '\r' then l.dropLast else l
  | none => l

/-- The line splitting performed by `bufio.Scanner` with `ScanLines`:
split on newlines, drop a final empty token produced by a trailing
newline, and strip a trailing carriage return from each line. -/
def scanLines (s : String) : List String :=
  let ps := splitCharOn '\n' s.data
  let ps :=
    match ps.getLast? with
    | some [] => ps.dropLast
    | _ => ps
  ps.map (fun l => String.mk (dropCR l))

/-! ### Packet-line splitting and recipient extraction -/

/-- Split a token at its first `=`, if any. -/
def breakEq : List Char → Option (List Char × List Char)
  | [] => none
  | c :: t =>
    if c == '=' then some ([], t)
    else
      match breakEq t with
      | some (a, b) => some (c :: a, b)
      | none => none

/-- Modelled from the spec: the Packet-Line Splitter (§4.1), whose source
(`splitPacket`) is not under `src/`.  Given one line of packet-dump text,
produce a mapping from field name to field value for every space-separated
token containing `=`; tokens without `=` are ignored, malformed lines never
fail.  Go map semantics: a later binding for the same name overwrites an
earlier one, which `pkGet` realises by taking the last binding. -/
def splitPacket (line : String) : List (String × String) :=
  (splitCharOn ' ' line.data).filterMap fun tok =>
    match breakEq tok with
    | some (a, b) => some (String.mk a, String.mk b)
    | none => none

/-- Lookup in a packet-field mapping with Go map overwrite semantics
(the last binding for a name wins). -/
def pkGet (m : List (String × String)) (k : String) : Option String :=
  m.reverse.lookup k

/-- The marker introducing a public-key-encryption packet in a dump. -/
def pubkeyEncMarker : String := ":pubkey enc packet:"

/-- The scanning loop of `GetRecipients` (gpg.go:148-161): for each line,
trim it, keep it only if it starts with the marker, split it and append the
`keyid` field to the accumulator when present. -/
def scanRecipientsGo : List String → List String → List String
  | [], acc => acc
  | l :: rest, acc =>
    let line := trimSpace l
    if hasPrefixStr line pubkeyEncMarker then
      match pkGet (splitPacket line) "keyid" with
      | some keyid => scanRecipientsGo rest (acc ++ [keyid])
      | none => scanRecipientsGo rest acc
    else scanRecipientsGo rest acc

/-- `GetRecipients` (gpg.go:134-164) as a function of the inspection
invocation's outcome: a failed invocation is returned as an error
(gpg.go:144-146), otherwise the captured combined output is scanned. -/
def GetRecipients (inspection : Except GpgError String) :
    Except GpgError (List String) :=
  match inspection with
  | .error e => .error e
  | .ok out => .ok (scanRecipientsGo (scanLines out) [])

/-- The `keyid` extracted from one dump line by the spec's description:
the value of the `keyid` field of a line whose trimmed text begins with the
public-key-encryption marker, `none` otherwise. -/
def lineKeyid (l : String) : Option String :=
  let line := trimSpace l
  if hasPrefixStr line pubkeyEncMarker then pkGet (splitPacket line) "keyid"
  else none

/-- The recipient list as the spec states it: the `keyid` field values of
the qualifying lines, in line order, duplicates preserved. -/
def recipientsSpec (out : String) : List String :=
  (scanLines out).filterMap lineKeyid

/-! ### A small regex engine for the two UID patterns

The source declares (gpg.go:27-28)

  reUIDComment = `([^(<]+)\s+(\([^)]+\))\s+<([^>]+)>`
  reUID        = `([^(<]+)\s+<([^>]+)>`

Go's `regexp` package documents leftmost-first (Perl backtracking)
semantics for `FindStringSubmatch`, which the engine below implements
directly: greedy one-or-more repetition with backtracking, tried at each
start position from the left. -/

/-- A single-character matcher: a (possibly negated) character class, or
the Perl class `\s`, which in Go's regexp syntax is `[\t\n\f\r ]`. -/
inductive RChar where
  | cls (neg : Bool) (cs : List Char)
  | ws
deriving DecidableEq, Repr

def RChar.test : RChar → Char → Bool
  | .cls neg cs, c => if neg then !(cs.contains c) else cs.contains c
  | .ws, c => c == ' ' || c == '\t' || c == '\n' || c == Char.ofNat 12 || c == '\r'

/-- Regular expressions, restricted to the constructs the two UID patterns
use: literals, greedy one-or-more repetition of a character matcher,
concatenation and numbered capture groups. -/
inductive RE where
  | eps
  | lit (c : Char)
  | plus (rc : RChar)
  | cat (a b : RE)
  | grp (n : Nat) (r : RE)
deriving Repr

/-- Capture environment: group number to captured character span. -/
abbrev Caps := List (Nat × List Char)

/-- Continue a greedy `+` after at least one character was consumed:
consume further matching characters first, falling back to the
continuation `k` at the current position when the longer attempt fails. -/
def plusMore (rc : RChar) : List Char → (List Char → Option Caps) → Option Caps
  | [], k => k []
  | c :: t, k =>
    if rc.test c then
      match plusMore rc t k with
      | some r => some r
      | none => k (c :: t)
    else k (c :: t)

/-- Backtracking matcher in continuation-passing style.  `REmatch r s k`
matches `r` against a prefix of `s` and hands the rest to `k`; a capture
group records the span it consumed on the successful path. -/
def REmatch : RE → List Char → (List Char → Option Caps) → Option Caps
  | .eps, s, k => k s
  | .lit c, s, k =>
    match s with
    | [] => none
    | a :: t => if a == c then k t else none
  | .plus rc, s, k =>
    match s with
    | [] => none
    | a :: t => if rc.test a then plusMore rc t k else none
  | .cat a b, s, k => REmatch a s fun r => REmatch b r k
  | .grp n r, s, k =>
    REmatch r s fun rest =>
      match k rest with
      | some caps => some ((n, s.take (s.length - rest.length)) :: caps)
      | none => none

/-- Leftmost search (`Regexp.FindStringSubmatch`): try a match starting at
each position, earliest first; the match need not extend to the end. -/
def REsearch (r : RE) : List Char → Option Caps
  | [] => REmatch r [] fun _ => some []
  | c :: t =>
    match REmatch r (c :: t) (fun _ => some []) with
    | some caps => some caps
    | none => REsearch r t

/-- Captured span of group `n`, as a string (empty if absent). -/
def capGet (caps : Caps) (n : Nat) : String :=
  String.mk ((caps.lookup n).getD [])

/-- `reUIDComment` (gpg.go:27): `([^(<]+)\s+(\([^)]+\))\s+<([^>]+)>`. -/
def reUIDComment : RE :=
  .cat (.grp 1 (.plus (.cls true ['(', '<'])))
   (.cat (.plus .ws)
    (.cat (.grp 2 (.cat (.lit '(') (.cat (.plus (.cls true [')'])) (.lit ')'))))
     (.cat (.plus .ws)
      (.cat (.lit '<')
       (.cat (.grp 3 (.plus (.cls true ['>'])))
        (.lit '>'))))))

/-- `reUID` (gpg.go:28): `([^(<]+)\s+<([^>]+)>`. -/
def reUID : RE :=
  .cat (.grp 1 (.plus (.cls true ['(', '<'])))
   (.cat (.plus .ws)
    (.cat (.lit '<')
     (.cat (.grp 2 (.plus (.cls true ['>'])))
      (.lit '>'))))

/-- `strings.Trim` with a cutset: remove leading and trailing characters
belonging to `cut`. -/
def trimCutset (cut : List Char) (l : List Char) : List Char :=
  ((l.dropWhile cut.contains).reverse.dropWhile cut.contains).reverse

/-- One user identity attached to a key. -/
structure Identity where
  name : String
  comment : String
  email : String
  validity : String
deriving DecidableEq, Repr

/-- Modelled from the spec: the identity-parsing routine of the
Colon-Record Parser (§4.2), whose source is not under `src/`; the two
patterns themselves are the source's `reUIDComment` and `reUID`
(gpg.go:27-28).  The raw UID string is matched against `reUIDComment`
first, then `reUID`; if neither matches, the whole string becomes the
name.  Per the spec's example the comment is the material inside the
parentheses, so the parenthesised capture is trimmed of `(` and `)`. -/
def parseUID (u : String) : Identity :=
  match REsearch reUIDComment u.data with
  | some caps =>
    { name := capGet caps 1
      comment := String.mk (trimCutset ['(', ')'] ((caps.lookup 2).getD []))
      email := capGet caps 3
      validity := "" }
  | none =>
    match REsearch reUID u.data with
    | some caps =>
      { name := capGet caps 1, comment := "", email := capGet caps 2,
        validity := "" }
    | none => { name := u, comment := "", email := "", validity := "" }

/-! ### The key inventory model and colon-record parser -/

/-- One OpenPGP key as reported by a listing: primary keys carry
identities and sub-keys, sub-keys are nested `Key` values of the same
shape. -/
inductive Key where
  | mk (keyType : String) (validity : String) (keyLength : Nat)
       (algorithm : String) (keyID : String)
       (creation : Option Nat) (expiration : Option Nat)
       (fingerprint : String)
       (identities : List Identity) (subKeys : List Key)
deriving Repr

def Key.fingerprint : Key → String
  | .mk _ _ _ _ _ _ _ f _ _ => f

def Key.identities : Key → List Identity
  | .mk _ _ _ _ _ _ _ _ ids _ => ids

def Key.subKeys : Key → List Key
  | .mk _ _ _ _ _ _ _ _ _ subs => subs

def Key.setFpr (fp : String) : Key → Key
  | .mk t v l a i c e _ ids subs => .mk t v l a i c e fp ids subs

/-- Set the fingerprint on the most recently opened sub-key (the last
one); a no-op when there is no sub-key. -/
def Key.setLastSubFpr (fp : String) : Key → Key
  | .mk t v l a i c e f ids subs =>
    match subs.getLast? with
    | none => .mk t v l a i c e f ids subs
    | some last => .mk t v l a i c e f ids (subs.dropLast ++ [last.setFpr fp])

def Key.addSub : Key → Key → Key
  | .mk t v l a i c e f ids subs, sub => .mk t v l a i c e f ids (subs ++ [sub])

def Key.addUid (uid : Identity) : Key → Key
  | .mk t v l a i c e f ids subs => .mk t v l a i c e f (ids ++ [uid]) subs

/-- The key inventory built by one listing call (`gpg.KeyList`). -/
abbrev KeyList := List Key

/-- Parse a decimal number; anything non-numeric is `none` ("unset"). -/
def parseDec (s : String) : Option Nat :=
  if s.data ≠ [] && s.data.all Char.isDigit then
    some (s.data.foldl (fun n c => n * 10 + (c.toNat - 48)) 0)
  else none

/-- Modelled from the spec (§4.2): unknown numeric algorithm codes map to
an explicit "unknown" value rather than failing. -/
def algoFromCode (code : Nat) : String :=
  if code == 1 || code == 2 || code == 3 then "RSA"
  else if code == 16 then "Elgamal"
  else if code == 17 then "DSA"
  else if code == 18 then "ECDH"
  else if code == 19 then "ECDSA"
  else if code == 22 then "EdDSA"
  else "unknown"

/-- Build a key from the colon-separated fields of a `pub`/`sec`/`sub`/
`ssb` record.  Positions (0-indexed): 1 validity, 2 key length,
3 algorithm code, 4 key ID, 5 creation timestamp, 6 expiration
timestamp; the key type is the listing type requested, not the tag. -/
def keyFromFields (typ : String) (fs : List String) : Key :=
  .mk typ (fs.getD 1 "")
    ((parseDec (fs.getD 2 "")).getD 0)
    (algoFromCode ((parseDec (fs.getD 3 "")).getD 0))
    (fs.getD 4 "")
    (parseDec (fs.getD 5 ""))
    (parseDec (fs.getD 6 ""))
    "" [] []

/-- State of the colon-record fold: finished keys, the currently open
top-level key, and whether the most recently opened record is a
sub-key (so a following `fpr` attaches there). -/
structure ColonSt where
  done : List Key
  cur : Option Key
  subOpen : Bool

/-- Modelled from the spec: one step of the Colon-Record Parser (§4.2),
whose source (`parseColons`) is not under `src/`.  `pub`/`sec` begin a new
top-level key (flushing the open one); `sub`/`ssb` append a sub-key to the
open top-level key and are skipped when none is open; `fpr` (field 9) sets
the fingerprint of the most recently opened record; `uid` (raw string in
field 9, validity in field 1) appends an identity to the open top-level
key; any other tag is ignored and no line ever aborts the parse. -/
def colonStep (typ : String) (st : ColonSt) (line : String) : ColonSt :=
  let fs := (splitCharOn ':' line.data).map String.mk
  let tag := fs.getD 0 ""
  if tag == "pub" || tag == "sec" then
    { done := st.done ++ st.cur.toList, cur := some (keyFromFields typ fs),
      subOpen := false }
  else if tag == "sub" || tag == "ssb" then
    match st.cur with
    | none => st
    | some k => { st with cur := some (k.addSub (keyFromFields typ fs)), subOpen := true }
  else if tag == "fpr" then
    match st.cur with
    | none => st
    | some k =>
      if st.subOpen then { st with cur := some (k.setLastSubFpr (fs.getD 9 "")) }
      else { st with cur := some (k.setFpr (fs.getD 9 "")) }
  else if tag == "uid" then
    match st.cur with
    | none => st
    | some k =>
      { st with cur := some (k.addUid { parseUID (fs.getD 9 "") with validity := fs.getD 1 "" }) }
  else st

/-- Modelled from the spec: the Colon-Record Parser (§4.2), folding the
listing output line by line and flushing the last open key at the end. -/
def parseColons (typ : String) (out : String) : KeyList :=
  let st := (scanLines out).foldl (colonStep typ) ⟨[], none, false⟩
  st.done ++ st.cur.toList

/-! ### The wrapper state and its operations -/

/-- The two instance-scoped caches of the `GPG` struct (gpg.go:35-41);
`none` models the `nil` slice meaning "not built yet". -/
structure GPGState where
  pubKeys : Option KeyList
  privKeys : Option KeyList
deriving Repr

/-- Outcome of one external invocation as the wrapper observes it: the
captured output and, when the invocation failed, its error. -/
structure RunResult where
  out : String
  err : Option GpgError

/-- The message substring the wrapper sniffs for (gpg.go:88). -/
def noSecretKeyMsg : String := "secret key not available"

/-- `listKeys` (gpg.go:77-95) as a function of the invocation outcome:
on failure, an output containing the no-secret-key message yields an
empty inventory and no error, any other failure is returned unchanged;
on success the output is parsed into an inventory. -/
def listKeys (typ : String) (r : RunResult) : Except GpgError KeyList :=
  match r.err with
  | some e =>
    if containsStr r.out noSecretKeyMsg then .ok []
    else .error e
  | none => .ok (parseColons typ r.out)

/-- Result of a cached listing call: the returned value, the wrapper
state afterwards, and whether the external build was performed. -/
structure ListOutcome where
  res : Except GpgError KeyList
  state : GPGState
  invoked : Bool
deriving Repr

/-- `ListPublicKeys` (gpg.go:98-107): return the cached inventory when
present, else build via `listKeys` and store the result on success. -/
def ListPublicKeys (s : GPGState) (r : RunResult) : ListOutcome :=
  match s.pubKeys with
  | some kl => ⟨.ok kl, s, false⟩
  | none =>
    match listKeys "public" r with
    | .ok kl => ⟨.ok kl, { s with pubKeys := some kl }, true⟩
    | .error e => ⟨.error e, s, true⟩

/-- `ListPrivateKeys` (gpg.go:116-125): same contract for the
secret-key cache. -/
def ListPrivateKeys (s : GPGState) (r : RunResult) : ListOutcome :=
  match s.privKeys with
  | some kl => ⟨.ok kl, s, false⟩
  | none =>
    match listKeys "secret" r with
    | .ok kl => ⟨.ok kl, { s with privKeys := some kl }, true⟩
    | .error e => ⟨.error e, s, true⟩

/-- `FindPublicKeys` (gpg.go:110-113): always bypasses the cache. -/
def FindPublicKeys (r : RunResult) : Except GpgError KeyList :=
  listKeys "public" r

/-- `FindPrivateKeys` (gpg.go:128-131): always bypasses the cache. -/
def FindPrivateKeys (r : RunResult) : Except GpgError KeyList :=
  listKeys "secret" r

/-- `Decrypt` (gpg.go:196-203): the invocation result is returned as is,
output on success, the bare error on failure. -/
def Decrypt (runRes : Except GpgError String) : Except GpgError String :=
  runRes

/-- `ExportPublicKey` (gpg.go:206-222) as a function of the invocation
outcome and the outcome the file write would have.  Returns the
operation result and the file write performed (`none` when no file is
written, `some (filename, content)` otherwise).  An invocation failure is
wrapped with the failed command; an empty export is a "Key not found"
error and nothing is written. -/
def ExportPublicKey (filename cmdStr : String)
    (runRes : Except GpgError String) (writeErr : Option GpgError) :
    Except GpgError Unit × Option (String × String) :=
  match runRes with
  | .error e =>
    (.error (.wrapped ("failed to run command '" ++ cmdStr ++ "'") e), none)
  | .ok out =>
    if out.length < 1 then (.error (.simple "Key not found"), none)
    else
      match writeErr with
      | some e => (.error e, none)
      | none => (.ok (), some (filename, out))

/-- `ImportPublicKey` (gpg.go:225-247) as a function of the file-read
outcome and the import invocation's error, if any.  Both failures are
wrapped with context and leave the state untouched; only a successful run
clears the two key caches (gpg.go:243-245). -/
def ImportPublicKey (s : GPGState) (filename cmdStr : String)
    (readRes : Except GpgError String) (runErr : Option GpgError) :
    Except GpgError Unit × GPGState :=
  match readRes with
  | .error e =>
    (.error (.wrapped ("failed to read file '" ++ filename ++ "'") e), s)
  | .ok _ =>
    match runErr with
    | some e =>
      (.error (.wrapped ("failed to run command: '" ++ cmdStr ++ "'") e), s)
    | none => (.ok (), ⟨none, none⟩)

theorem scanRecipientsGo_eq (ls : List String) (acc : List String) :
    scanRecipientsGo ls acc = acc ++ ls.filterMap lineKeyid := by
  induction ls generalizing acc with
  | nil => simp [scanRecipientsGo]
  | cons l rest ih =>
    simp only [scanRecipientsGo, lineKeyid, List.filterMap_cons]
    by_cases hp : hasPrefixStr (trimSpace l) pubkeyEncMarker
    · simp only [hp, if_pos]
      cases hk : pkGet (splitPacket (trimSpace l)) "keyid" with
      | none => simp [ih]
      | some keyid => simp [ih]
    · simp [hp, ih]

/-- C1: on a packet dump whose inspection invocation succeeded,
`GetRecipients` returns exactly the `keyid` field values of the lines
whose trimmed text begins with `:pubkey enc packet:` and whose split
fields contain a `keyid` entry, in line order with duplicates preserved;
a dump with zero such lines yields an empty list and no error. -/
theorem GetRecipients_extracts_keyids (out : String) :
    GetRecipients (.ok out) = .ok (recipientsSpec out) ∧
    (recipientsSpec out = [] → GetRecipients (.ok out) = .ok []) := by
  have h : GetRecipients (.ok out) = .ok (recipientsSpec out) := by
    simp [GetRecipients, recipientsSpec, scanRecipientsGo_eq]
  exact ⟨h, fun he => by rw [h, he]⟩

theorem GetRecipients_extracts_keyids_witness :
    GetRecipients (.ok ":pubkey enc packet: version 3 keyid=AAAA algo=1\n:sig packet: x\n\t:pubkey enc packet: keyid=BBBB\n")
      = .ok ["AAAA", "BBBB"] ∧
    GetRecipients (.ok "gpg: encrypted data\n:literal data packet:\n") = .ok [] :=
  ⟨(GetRecipients_extracts_keyids _).1.trans (by rfl),
   (GetRecipients_extracts_keyids _).2 (by decide)⟩

/-- C7: `GetRecipients` fails exactly when the inspection invocation
itself failed, and then it propagates that error rather than returning a
partial or empty recipient list as a success. -/
theorem GetRecipients_error_iff (inp : Except GpgError String) :
    (∀ e, inp = .error e → GetRecipients inp = .error e) ∧
    ((∃ e, GetRecipients inp = .error e) ↔ ∃ e, inp = .error e) := by
  cases inp <;> simp [GetRecipients]

theorem GetRecipients_error_iff_witness :
    GetRecipients (.error (.invocation "exit status 2")) =
      .error (.invocation "exit status 2") :=
  (GetRecipients_error_iff _).1 _ rfl

/-- C5: `parseUID` tries `reUIDComment` ("name (comment) <email>") first,
then `reUID` ("name <email>"); the first match populates name, comment
(the material inside the parentheses) and email, the second leaves the
comment empty, and when neither matches the whole string becomes the name
with comment and email empty — parsing never fails. -/
theorem parseUID_pattern_order (u : String) :
    (∀ caps, REsearch reUIDComment u.data = some caps →
      parseUID u = { name := capGet caps 1,
                     comment := String.mk (trimCutset ['(', ')'] ((caps.lookup 2).getD [])),
                     email := capGet caps 3, validity := "" }) ∧
    (REsearch reUIDComment u.data = none →
      ∀ caps, REsearch reUID u.data = some caps →
        parseUID u = { name := capGet caps 1, comment := "",
                       email := capGet caps 2, validity := "" }) ∧
    (REsearch reUIDComment u.data = none → REsearch reUID u.data = none →
      parseUID u = { name := u, comment := "", email := "", validity := "" }) := by
  refine ⟨fun caps h => ?_, fun h1 caps h2 => ?_, fun h1 h2 => ?_⟩
  · simp [parseUID, h]
  · simp [parseUID, h1, h2]
  · simp [parseUID, h1, h2]

theorem parseUID_pattern_order_witness :
    parseUID "Jane Doe (work) <jane@example.com>" =
      { name := "Jane Doe", comment := "work", email := "jane@example.com",
        validity := "" } ∧
    parseUID "Jane Doe <jane@example.com>" =
      { name := "Jane Doe", comment := "", email := "jane@example.com",
        validity := "" } ∧
    parseUID "garbled-uid-no-brackets" =
      { name := "garbled-uid-no-brackets", comment := "", email := "",
        validity := "" } :=
  ⟨((parseUID_pattern_order _).1
      [(1, "Jane Doe".data), (2, "(work)".data), (3, "jane@example.com".data)]
      (by decide)).trans (by decide),
   ((parseUID_pattern_order _).2.1 (by decide)
      [(1, "Jane Doe".data), (2, "jane@example.com".data)]
      (by decide)).trans (by decide),
   (parseUID_pattern_order _).2.2 (by decide) (by decide)⟩

/-- C3: a secret-key listing whose invocation failed with captured output
containing the no-secret-key message yields an empty inventory and no
error instead of surfacing the invocation failure. -/
theorem listKeys_no_secret_key_empty (out : String) (e : GpgError)
    (h : containsStr out noSecretKeyMsg = true) :
    listKeys "secret" ⟨out, some e⟩ = .ok [] := by
  simp [listKeys, h]

theorem listKeys_no_secret_key_empty_witness :
    listKeys "secret"
      ⟨"gpg: error reading key: secret key not available", some (.invocation "exit status 2")⟩
      = .ok [] :=
  listKeys_no_secret_key_empty _ _ (by decide)

/-- C10: the empty-inventory special case is keyed only on the captured
output text, not on the listing type: any failed listing (public or
secret) whose output contains "secret key not available" is reported as
an empty success. -/
theorem listKeys_empty_keyed_on_output (typ out : String) (e : GpgError)
    (h : containsStr out noSecretKeyMsg = true) :
    listKeys typ ⟨out, some e⟩ = .ok [] := by
  simp [listKeys, h]

theorem listKeys_empty_keyed_on_output_witness :
    listKeys "public"
      ⟨"gpg: secret key not available", some (.invocation "exit status 2")⟩
      = .ok [] :=
  listKeys_empty_keyed_on_output "public" _ _ (by decide)

/-- C4: a successful `ListPrivateKeys` call stores its inventory in the
cache, and a second call with no intervening import returns the identical
inventory from the cache without performing the external build. -/
theorem ListPrivateKeys_cache_idempotent (s : GPGState) (r1 r2 : RunResult)
    (kl : KeyList) (h : (ListPrivateKeys s r1).res = .ok kl) :
    (ListPrivateKeys s r1).state.privKeys = some kl ∧
    ListPrivateKeys (ListPrivateKeys s r1).state r2 =
      ⟨.ok kl, (ListPrivateKeys s r1).state, false⟩ := by
  cases hc : s.privKeys with
  | some kl0 =>
    simp only [ListPrivateKeys, hc, Except.ok.injEq] at h ⊢
    subst h
    exact ⟨rfl, by simp [ListPrivateKeys, hc]⟩
  | none =>
    cases hl : listKeys "secret" r1 with
    | error e => simp [ListPrivateKeys, hc, hl] at h
    | ok kl1 =>
      simp only [ListPrivateKeys, hc, hl, Except.ok.injEq] at h ⊢
      subst h
      simp [ListPrivateKeys]

theorem ListPrivateKeys_cache_idempotent_witness :
    ListPrivateKeys (ListPrivateKeys ⟨none, none⟩ ⟨"", none⟩).state ⟨"", none⟩ =
      ⟨.ok [], (ListPrivateKeys ⟨none, none⟩ ⟨"", none⟩).state, false⟩ :=
  (ListPrivateKeys_cache_idempotent ⟨none, none⟩ ⟨"", none⟩ ⟨"", none⟩ [] rfl).2

/-- C2: a successful `ImportPublicKey` clears both the public-key and the
secret-key cache, so the next `ListPublicKeys` or `ListPrivateKeys` call
performs the external build and returns its fresh result instead of a
previously cached value. -/
theorem ImportPublicKey_clears_caches (s : GPGState) (filename cmdStr buf : String) :
    ImportPublicKey s filename cmdStr (.ok buf) none = (.ok (), ⟨none, none⟩) ∧
    ∀ r : RunResult,
      (ListPublicKeys (ImportPublicKey s filename cmdStr (.ok buf) none).2 r).invoked = true ∧
      (ListPublicKeys (ImportPublicKey s filename cmdStr (.ok buf) none).2 r).res =
        listKeys "public" r ∧
      (ListPrivateKeys (ImportPublicKey s filename cmdStr (.ok buf) none).2 r).invoked = true ∧
      (ListPrivateKeys (ImportPublicKey s filename cmdStr (.ok buf) none).2 r).res =
        listKeys "secret" r := by
  refine ⟨rfl, fun r => ?_⟩
  cases hp : listKeys "public" r <;> cases hq : listKeys "secret" r <;>
    simp [ImportPublicKey, ListPublicKeys, ListPrivateKeys, hp, hq]

/-- C9: a failed `ImportPublicKey` — whether the file read or the import
invocation failed — returns a context-wrapped error and leaves both key
caches (the whole wrapper state) unchanged. -/
theorem ImportPublicKey_failure_preserves_caches (s : GPGState)
    (filename cmdStr : String) (e : GpgError) :
    (∀ runErr, ImportPublicKey s filename cmdStr (.error e) runErr =
      (.error (.wrapped ("failed to read file '" ++ filename ++ "'") e), s)) ∧
    (∀ buf, ImportPublicKey s filename cmdStr (.ok buf) (some e) =
      (.error (.wrapped ("failed to run command: '" ++ cmdStr ++ "'") e), s)) :=
  ⟨fun _ => rfl, fun _ => rfl⟩

/-- C6: an `ExportPublicKey` whose export invocation succeeds with zero
bytes of output returns a "Key not found" error and writes nothing; a
file is written only for a successful, non-empty export. -/
theorem ExportPublicKey_empty_is_key_not_found (filename cmdStr : String)
    (writeErr : Option GpgError) :
    ExportPublicKey filename cmdStr (.ok "") writeErr =
      (.error (.simple "Key not found"), none) ∧
    (∀ runRes fw, (ExportPublicKey filename cmdStr runRes writeErr).2 = some fw →
      ∃ out, runRes = .ok out ∧ out ≠ "" ∧ fw = (filename, out)) := by
  refine ⟨rfl, fun runRes fw h => ?_⟩
  cases runRes with
  | error e => simp [ExportPublicKey] at h
  | ok out =>
    by_cases ho : out.length < 1
    · simp [ExportPublicKey, ho] at h
    · cases writeErr with
      | some e => simp [ExportPublicKey, ho] at h
      | none =>
        simp only [ExportPublicKey, ho, if_false, Option.some.injEq] at h
        refine ⟨out, rfl, fun he => ?_, h.symm⟩
        subst he
        exact ho (by decide)

theorem ExportPublicKey_empty_is_key_not_found_witness :
    ExportPublicKey "key.asc" "gpg --armor --export 0xDEADBEEF" (.ok "") none =
      (.error (.simple "Key not found"), none) ∧
    ∃ out, (Except.ok "PGP KEY BLOCK" : Except GpgError String) = .ok out ∧
      out ≠ "" ∧ (("key.asc", "PGP KEY BLOCK") : String × String) = ("key.asc", out) :=
  ⟨(ExportPublicKey_empty_is_key_not_found _ _ _).1,
   (ExportPublicKey_empty_is_key_not_found "key.asc" "gpg --armor --export 0xDEADBEEF" none).2
     (.ok "PGP KEY BLOCK") ("key.asc", "PGP KEY BLOCK") rfl⟩

/-- C8 (counterexample): an invocation failure of `Decrypt` — and of a
listing — is returned to the caller bare, carrying no wrapping context
identifying the failed operation, contradicting the claim that Decrypt
and the listing operations attach operation context. -/
theorem Decrypt_propagates_bare_error :
    Decrypt (.error (.invocation "exit status 2")) =
      .error (.invocation "exit status 2") ∧
    listKeys "public" ⟨"", some (.invocation "exit status 2")⟩ =
      .error (.invocation "exit status 2") ∧
    GpgError.isWrapped (.invocation "exit status 2") = false :=
  ⟨rfl, rfl, rfl⟩

/-- C8 (amended): invocation failures are surfaced to the caller (the
documented secret-key-message case excepted), but `Decrypt` and the
listing operations propagate the error unchanged, without added
operation context; only `ExportPublicKey` and `ImportPublicKey` attach a
context message naming the failed command. -/
theorem invocation_failure_propagation (e : GpgError) (typ out : String)
    (h : containsStr out noSecretKeyMsg = false) :
    Decrypt (.error e) = .error e ∧
    listKeys typ ⟨out, some e⟩ = .error e ∧
    (∀ filename cmdStr writeErr,
      (ExportPublicKey filename cmdStr (.error e) writeErr).1 =
        .error (.wrapped ("failed to run command '" ++ cmdStr ++ "'") e)) ∧
    (∀ s filename cmdStr buf,
      (ImportPublicKey s filename cmdStr (.ok buf) (some e)).1 =
        .error (.wrapped ("failed to run command: '" ++ cmdStr ++ "'") e)) := by
  refine ⟨rfl, ?_, fun _ _ _ => rfl, fun _ _ _ _ => rfl⟩
  simp [listKeys, h]

theorem invocation_failure_propagation_witness :
    listKeys "public" ⟨"gpg: fatal error", some (.invocation "exit status 2")⟩ =
      .error (.invocation "exit status 2") :=
  (invocation_failure_propagation _ "public" _ (by decide)).2.1
